import Mathlib

/-!
Verification of the autoscan daemon (dvsmasta/autoscan) against its
natural-language specification.  The development shallowly embeds the two
source files of the repository:

* `src/unnamed/part_000` — the `main` package: config loading, trigger and
  target initialisation, and the driver loop that calls
  `proc.CheckAvailability` / `proc.Process`.
* `src/targets/plex/plex.go` — the plex target: `New`, `Available`, `Scan`,
  `rcrefresh`, `getScanLibrary`, `isSupportedVersion`.

External effects (HTTP calls of the plex target, the processor/store whose
source is not part of the repository snapshot) are modelled by explicit
oracles and, where the repository snapshot lacks the code, from the spec;
such definitions carry a `Modelled from the spec:` doc comment.

Go strings are modelled as lists of characters (`GoStr`), with the Go
`strings` / `strconv` operations the sources use defined structurally so
that every definition evaluates by kernel reduction.  Go indexes bytes
where this model indexes characters; the two agree on the ASCII paths the
program manipulates.
-/

/-- A Go string, modelled as its character list. -/
abbrev GoStr := List Char

/-- Embed a Lean string literal as a `GoStr`. -/
def gs (s : String) : GoStr := s.toList

/-! ## Go error values and `errors.Is`

The sentinel errors `ErrNoScans`, `ErrAnchorUnavailable`,
`ErrTargetUnavailable`, `ErrFatal` live in the root `autoscan` package (not
in the snapshot); the snapshot consumes them via `errors.Is` and wraps them
with `fmt.Errorf("...: %w", err)`.  A Go error chain is linear: a value is a
sentinel, a plain error, or a wrap of a message around an inner error. -/

inductive GoErr where
  | errNoScans
  | errAnchorUnavailable
  | errTargetUnavailable
  | errFatal
  | base (msg : GoStr)
  | wrap (msg : GoStr) (inner : GoErr)
deriving DecidableEq, Repr

/-- Go `errors.Is`: the target is compared against every element of the
unwrap chain. -/
def errorsIs : GoErr → GoErr → Bool
  | GoErr.wrap m inner, t => (GoErr.wrap m inner == t) || errorsIs inner t
  | e, t => e == t

/-! ## Go string helpers used by the sources -/

/-- Go `strings.HasPrefix(s, pre)` (argument order: string first). -/
def hasPrefix : GoStr → GoStr → Bool
  | _, [] => true
  | [], _ :: _ => false
  | a :: as, b :: bs => a == b && hasPrefix as bs

/-- Go `strings.HasSuffix(s, suf)`. -/
def hasSuffix (s suf : GoStr) : Bool := hasPrefix s.reverse suf.reverse

/-- Go `strings.TrimPrefix(s, pre)`. -/
def trimPrefix (s pre : GoStr) : GoStr :=
  if hasPrefix s pre then s.drop pre.length else s

/-- Go `strings.TrimSuffix(s, suf)`. -/
def trimSuffix (s suf : GoStr) : GoStr :=
  if hasSuffix s suf then s.take (s.length - suf.length) else s

/-- Go `strings.LastIndex(s, string(c))` for a one-character separator;
`none` models Go's `-1`. -/
def lastIndexOfChar (s : GoStr) (c : Char) : Option Nat :=
  match s.reverse.findIdx? (fun x => x = c) with
  | none => none
  | some i => some (s.length - 1 - i)

/-- Go `strings.Contains(s, sub)`. -/
def containsSubstring (s sub : GoStr) : Bool :=
  (List.range (s.length + 1)).any (fun i => hasPrefix (s.drop i) sub)

/-- Go `strings.Split(s, string(c))` for a one-character separator. -/
def splitOnChar (c : Char) : GoStr → List GoStr
  | [] => [[]]
  | x :: xs =>
    let r := splitOnChar c xs
    if x = c then [] :: r
    else
      match r with
      | [] => [[x]]
      | h :: t => (x :: h) :: t

/-- Value of a decimal digit list, most significant first. -/
def digitsToNat (l : List Char) : Nat :=
  l.foldl (fun a c => a * 10 + (c.toNat - 48)) 0

/-- Go `strconv.Atoi` with the error ignored, as plex.go does
(`major, _ := strconv.Atoi(parts[0])`): a syntactically valid optionally
signed decimal parses to its value, anything else yields 0. -/
def atoiOrZero (s : GoStr) : Int :=
  match s with
  | [] => 0
  | c :: rest =>
    let neg : Bool := c = '-'
    let ds : List Char := if c = '-' || c = '+' then rest else c :: rest
    if ds.isEmpty then 0
    else if ds.all Char.isDigit then
      if neg then -(digitsToNat ds : Int) else (digitsToNat ds : Int)
    else 0

/-! ## plex.go: `isSupportedVersion` -/

/-- plex.go `isSupportedVersion`: split on ".", reject fewer than two parts,
parse major/minor with Atoi errors ignored, accept iff
`major >= 2 || (major == 1 && minor >= 20)`. -/
def isSupportedVersion (version : GoStr) : Bool :=
  match splitOnChar '.' version with
  | p0 :: p1 :: _ =>
    let major := atoiOrZero p0
    let minor := atoiOrZero p1
    if 2 ≤ major ∨ (major = 1 ∧ 20 ≤ minor) then true else false
  | _ => false

example : isSupportedVersion (gs "1.20.3") = true := by decide
example : isSupportedVersion (gs "1.19.9") = false := by decide
example : isSupportedVersion (gs "2") = false := by decide
example : isSupportedVersion (gs "1.20b") = false := by decide
example : atoiOrZero (gs "-3") = -3 := by decide
example : containsSubstring (gs "abcde") (gs "bcd") = true := by decide
example : containsSubstring (gs "abcde") (gs "bd") = false := by decide
example : lastIndexOfChar (gs "/a/b") '/' = some 2 := by decide
example : lastIndexOfChar (gs "ab") '/' = none := by decide
example : splitOnChar '.' (gs "1.20b") = [gs "1", gs "20b"] := by decide
example : trimSuffix (gs "/a/b") (gs "/b") = gs "/a" := by decide
example : trimPrefix (gs "/mnt/x") (gs "/mnt") = gs "/x" := by decide

/-! ## plex.go: libraries and the rewriter -/

/-- A Plex library as used by plex.go (`l.Name`, `l.Path`, `lib.ID`); the
`library` struct itself lives in the api-client file absent from the
snapshot. -/
structure library where
  Name : GoStr
  Path : GoStr
  ID : Nat
deriving DecidableEq, Repr

/-- One rewrite pair.  Spec: "A rewriter is a list of (from-prefix,
to-prefix) pairs"; `from`/`to` are renamed `fromPath`/`toPath` because
`from` is a Lean keyword. -/
structure Rewrite where
  fromPath : GoStr
  toPath : GoStr
deriving DecidableEq, Repr

/-- Modelled from the spec: `autoscan.NewRewriter` is not under src/.
"A rewriter is a list of (from-prefix, to-prefix) pairs; it transforms
trigger-side paths into target-visible paths ...; if a trigger delivers a
path that matches no rewrite, the path is stored unchanged."  The first
matching pair applies. -/
def rewritePath : List Rewrite → GoStr → GoStr
  | [], path => path
  | r :: rs, path =>
    if hasPrefix path r.fromPath then r.toPath ++ path.drop r.fromPath.length
    else rewritePath rs path

/-- plex.go `target.getScanLibrary`: collect the libraries whose `Path` is a
prefix of the folder; an empty collection is the
"failed determining libraries" error. -/
def getScanLibrary (libs : List library) (folder : GoStr) : Except GoErr (List library) :=
  let libraries := libs.filter (fun l => hasPrefix folder l.Path)
  if libraries.isEmpty then
    Except.error (GoErr.base (folder ++ gs ": failed determining libraries"))
  else Except.ok libraries

/-! ## plex.go: `Scan` with its rclone side-dispatch -/

/-- The two hard-coded rclone refresh endpoints of plex.go `Scan`. -/
def url : GoStr := gs "http://192.168.1.172:5570/vfs%2Frefresh"

def url2 : GoStr := gs "http://192.168.1.15:5572/vfs%2Frefresh"

/-- One POST attempted by `rcrefresh`: endpoint, the "recursive" field of
the JSON body, and the "dir" field. -/
structure RcPost where
  url : GoStr
  recursive : Bool
  dir : GoStr
deriving DecidableEq, Repr

/-- Oracle for the outside world of a plex target: `rc url recursive dir`
is the response body of the rclone POST (`none` = transport-level failure
of `client.Do`, which `rcrefresh` turns into `panic(err)`), and
`apiScan folder libraryID` the result of `t.api.Scan` (`none` = nil). -/
structure World where
  rc : GoStr → Bool → GoStr → Option GoStr
  apiScan : GoStr → Nat → Option GoErr

/-- Result of plex.go `Scan`: a nil return, an error return, or a panic of
the goroutine (either `panic(err)` in `rcrefresh`, or an out-of-range slice
`s[-1:]` when `strings.LastIndex` returned -1). -/
inductive ScanOutcome where
  | ok
  | fail (e : GoErr)
  | panicked
deriving DecidableEq, Repr

/-- The rclone refresh phase of plex.go `Scan` (everything between
`getScanLibrary` succeeding and the per-library scan loop): returns whether
it completed without panicking, together with the POSTs attempted in
order.  Each `rcrefresh(data, u)` is one POST; a `none` response is
`client.Do` failing, hence `panic(err)` after the POST was attempted. -/
def rcphase (w : World) (scanFolder : GoStr) : Bool × List RcPost :=
  let s := trimPrefix scanFolder (gs "/mnt/unionfs/Media")
  match lastIndexOfChar s '/' with
  | none => (false, [])
  | some i =>
    let base_dir := trimSuffix s (s.drop i)
    let p1 : RcPost := ⟨url, true, s⟩
    match w.rc url true s with
    | none => (false, [p1])
    | some resp =>
      let p2 : RcPost := ⟨url2, true, s⟩
      match w.rc url2 true s with
      | none => (false, [p1, p2])
      | some _ =>
        if containsSubstring resp (gs "file does not exist") then
          let p3 : RcPost := ⟨url, false, base_dir⟩
          match w.rc url false base_dir with
          | none => (false, [p1, p2, p3])
          | some resp2 =>
            let p4 : RcPost := ⟨url2, false, base_dir⟩
            match w.rc url2 false base_dir with
            | none => (false, [p1, p2, p3, p4])
            | some _ =>
              if containsSubstring resp2 (gs "OK") then
                let p5 : RcPost := ⟨url, true, s⟩
                match w.rc url true s with
                | none => (false, [p1, p2, p3, p4, p5])
                | some _ =>
                  let p6 : RcPost := ⟨url2, true, s⟩
                  match w.rc url2 true s with
                  | none => (false, [p1, p2, p3, p4, p5, p6])
                  | some _ => (true, [p1, p2, p3, p4, p5, p6])
              else
                match lastIndexOfChar base_dir '/' with
                | none => (false, [p1, p2, p3, p4])
                | some j =>
                  let new_base_dir := trimSuffix base_dir (base_dir.drop j)
                  let p5 : RcPost := ⟨url, false, new_base_dir⟩
                  match w.rc url false new_base_dir with
                  | none => (false, [p1, p2, p3, p4, p5])
                  | some _ =>
                    let p6 : RcPost := ⟨url2, false, new_base_dir⟩
                    match w.rc url2 false new_base_dir with
                    | none => (false, [p1, p2, p3, p4, p5, p6])
                    | some _ => (true, [p1, p2, p3, p4, p5, p6])
        else (true, [p1, p2])

/-- Observable events of one plex.go `Scan` call. -/
inductive PlexEvent where
  | warnNoLibraries
  | rcPost (url : GoStr) (recursive : Bool) (dir : GoStr)
  | apiScan (folder : GoStr) (libraryID : Nat)
deriving DecidableEq, Repr

/-- The per-library scan loop at the end of plex.go `Scan`: call
`t.api.Scan(scanFolder, lib.ID)` for each matched library, returning the
first error. -/
def dispatchLibs (w : World) (scanFolder : GoStr) : List library → ScanOutcome × List PlexEvent
  | [] => (ScanOutcome.ok, [])
  | l :: ls =>
    match w.apiScan scanFolder l.ID with
    | some e => (ScanOutcome.fail e, [PlexEvent.apiScan scanFolder l.ID])
    | none =>
      let rest := dispatchLibs w scanFolder ls
      (rest.1, PlexEvent.apiScan scanFolder l.ID :: rest.2)

/-- The plex `target` struct (the fields plex.go reads in `Scan`). -/
structure PlexTarget where
  url : GoStr
  token : GoStr
  libraries : List library
  rewrite : List Rewrite

/-- Modelled from the spec: `autoscan.Scan`, the unit of work, lives in the
root package absent from the snapshot.  Spec §3: folder (primary key),
filename (secondary key), priority (max wins on merge), retries
(incremented on any target failure); the wall-clock `time` field is not
needed by any claim settled here and is omitted. -/
structure Scan where
  folder : GoStr
  filename : GoStr
  priority : Nat
  retries : Nat
deriving DecidableEq, Repr

/-- plex.go `target.Scan`: rewrite `scan.Folder`, disclaim with a warning
and a nil return when no library matches, otherwise run the rclone refresh
phase and then scan every matching library. -/
def plexScan (t : PlexTarget) (w : World) (scan : Scan) : ScanOutcome × List PlexEvent :=
  let scanFolder := rewritePath t.rewrite scan.folder
  match getScanLibrary t.libraries scanFolder with
  | Except.error _ => (ScanOutcome.ok, [PlexEvent.warnNoLibraries])
  | Except.ok libs =>
    let rcp := rcphase w scanFolder
    let rcEvents := rcp.2.map (fun p => PlexEvent.rcPost p.url p.recursive p.dir)
    if rcp.1 then
      let d := dispatchLibs w scanFolder libs
      (d.1, rcEvents ++ d.2)
    else (ScanOutcome.panicked, rcEvents)

/-! ## plex.go: `New` and target initialisation in `main` -/

/-- plex target config (plex.go `Config`). -/
structure PlexConfig where
  url : GoStr
  token : GoStr
  rewrite : List Rewrite
  verbosity : GoStr

/-- plex.go `New`: build the rewriter, fetch the server version, reject an
unsupported version with an error wrapping `ErrFatal`
(`fmt.Errorf("plex running unsupported version %s: %w", version,
autoscan.ErrFatal)`), then fetch the libraries.  The version and library
HTTP calls are oracle inputs; `autoscan.NewRewriter` (absent from the
snapshot) is modelled as always succeeding, the spec giving it no failure
mode. -/
def plexNew (c : PlexConfig) (versionResult : Except GoErr GoStr)
    (librariesResult : Except GoErr (List library)) : Except GoErr PlexTarget :=
  match versionResult with
  | Except.error e => Except.error e
  | Except.ok version =>
    if !isSupportedVersion version then
      Except.error (GoErr.wrap
        (gs "plex running unsupported version " ++ version) GoErr.errFatal)
    else
      match librariesResult with
      | Except.error e => Except.error e
      | Except.ok libs =>
        Except.ok { url := c.url, token := c.token, libraries := libs, rewrite := c.rewrite }

/-- The plex part of the target-initialisation loop in `main`: each config
goes through `plex.New`; on error `log.Fatal()` fires, which (zerolog)
writes the message and calls `os.Exit(1)`.  The error value is the exit
code 1. -/
def initPlexTargets :
    List (PlexConfig × Except GoErr GoStr × Except GoErr (List library)) →
    Except Nat (List PlexTarget)
  | [] => Except.ok []
  | (c, vr, lr) :: rest =>
    match plexNew c vr lr with
    | Except.error _ => Except.error 1
    | Except.ok t =>
      match initPlexTargets rest with
      | Except.error n => Except.error n
      | Except.ok ts => Except.ok (t :: ts)

/-! ## main: the webhook authentication warning -/

/-- The condition in `main` under which "Webhooks running without
authentication" is logged: `(c.Auth.Username == "" || c.Auth.Password ==
"") && len(c.Triggers.Radarr)+len(c.Triggers.Sonarr) > 0`.  The counts are
the lengths of the configured lidarr/radarr/sonarr trigger lists (the
lidarr count is not consulted by the code). -/
def webhookAuthWarning (username password : GoStr) (nLidarr nRadarr nSonarr : Nat) : Bool :=
  (username == gs "" || password == gs "") && decide (0 < nRadarr + nSonarr)

/-- The warning condition as the spec claims it: "warn if unset while any
webhook trigger is configured", the webhook triggers being lidarr, radarr
and sonarr.  Stated for comparison with `webhookAuthWarning`, the
definition taken from the code. -/
def claimedWebhookAuthWarning (username password : GoStr) (nLidarr nRadarr nSonarr : Nat) : Bool :=
  (username == gs "" || password == gs "") && decide (0 < nLidarr + nRadarr + nSonarr)

/-! ## main: config decoding -/

/-- Go `time.Duration` is a count of nanoseconds. -/
abbrev Duration := Nat

def nsPerSecond : Duration := 1000000000

def nsPerMinute : Duration := 60 * nsPerSecond

/-- Authentication block of the config. -/
structure AuthConfig where
  username : GoStr
  password : GoStr
deriving DecidableEq, Repr

/-- The `config` struct of `main` restricted to the scalar options the
claims concern; the `triggers`/`targets` subtrees are kept opaque. -/
structure Config where
  port : Nat
  minimumAge : Duration
  scanDelay : Duration
  anchors : List GoStr
  auth : AuthConfig
deriving DecidableEq, Repr

/-- The default values `main` places in the struct before decoding:
`MinimumAge: 10 * time.Minute, ScanDelay: 5 * time.Second, Port: 3030`. -/
def defaultConfig : Config :=
  { port := 3030
    minimumAge := 10 * nsPerMinute
    scanDelay := 5 * nsPerSecond
    anchors := []
    auth := { username := gs "", password := gs "" } }

/-- A decoded top-level YAML value, by the shape the config schema
expects. -/
inductive YVal where
  | nat (n : Nat)
  | dur (d : Duration)
  | strs (l : List GoStr)
  | auth (username password : GoStr)
  | node
deriving DecidableEq, Repr

/-- The recognised top-level keys of the config schema. -/
def recognisedKeys : List GoStr :=
  [gs "port", gs "minimum-age", gs "scan-delay", gs "anchors",
   gs "authentication", gs "triggers", gs "targets"]

/-- Modelled from the spec: the YAML decoder is the external gopkg.in/yaml.v2
library; `main` enables `decoder.SetStrict(true)` and the spec states
"Strict decoding: unknown keys reject startup."  Applying one top-level
key to the pre-populated config: a recognised key overwrites its field, an
unrecognised key (or a value of the wrong shape) is a decode error. -/
def applyKey (c : Config) (k : GoStr) (v : YVal) : Option Config :=
  if k == gs "port" then
    match v with | YVal.nat n => some { c with port := n } | _ => none
  else if k == gs "minimum-age" then
    match v with | YVal.dur d => some { c with minimumAge := d } | _ => none
  else if k == gs "scan-delay" then
    match v with | YVal.dur d => some { c with scanDelay := d } | _ => none
  else if k == gs "anchors" then
    match v with | YVal.strs l => some { c with anchors := l } | _ => none
  else if k == gs "authentication" then
    match v with | YVal.auth u p => some { c with auth := ⟨u, p⟩ } | _ => none
  else if k == gs "triggers" then
    match v with | YVal.node => some c | _ => none
  else if k == gs "targets" then
    match v with | YVal.node => some c | _ => none
  else none

/-- Strict decode of a whole document (a top-level key/value list) onto a
start configuration; the first rejected key fails the decode. -/
def decodeConfigFrom (c : Config) : List (GoStr × YVal) → Option Config
  | [] => some c
  | (k, v) :: rest =>
    match applyKey c k v with
    | none => none
    | some c' => decodeConfigFrom c' rest

/-- `main`'s decode: defaults first, then the document. -/
def decodeConfig (doc : List (GoStr × YVal)) : Option Config :=
  decodeConfigFrom defaultConfig doc

/-- Outcome of the startup sequence of `main` up to the processor: a decode
error exits (code 1, `log.Fatal`) before `processor.New` is reached; a
processor-init error exits afterwards; otherwise the daemon runs with the
decoded config. -/
inductive StartupResult where
  | exitedAtConfig (code : Nat)
  | exitedAtProcessor (code : Nat)
  | running (c : Config)
deriving DecidableEq, Repr

/-- The startup order of `main`: decode the config (strict), then
initialise the processor; `procInit` is the oracle for
`processor.New`. -/
def startupSequence (doc : List (GoStr × YVal)) (procInit : Config → Option GoErr) :
    StartupResult :=
  match decodeConfig doc with
  | none => StartupResult.exitedAtConfig 1
  | some c =>
    match procInit c with
    | some _ => StartupResult.exitedAtProcessor 1
    | none => StartupResult.running c

/-! ## The driver loop of `main` and its environment

`main` ends in `for { ... }`: while `targetsAvailable` is false it calls
`proc.CheckAvailability(targets)` (nil → set the flag and fall through;
`ErrFatal` → `select {}`, i.e. the goroutine blocks forever; anything else
→ sleep 15s and `continue`), then calls `proc.Process(targets)` and
classifies its error with `errors.Is` in the order nil, `ErrNoScans`,
`ErrAnchorUnavailable`, `ErrTargetUnavailable`, `ErrFatal`, default
(`log.Fatal`, i.e. `os.Exit(1)`).

The processor and its store are not part of the snapshot; their effect on
the queue of pending scans is modelled from the spec (§4.1, §4.4): a
successful `Process` pass deletes the dispatched folder's rows, a failing
dispatch increments `retries` for the folder's rows, and triggers enqueue
through `Add`/`Upsert`.  The results of `CheckAvailability` and `Process`
and the folder a pass dispatches are oracle inputs carried by each loop
iteration. -/

/-- Modelled from the spec: store `Upsert` of one scan (§4.1): an existing
(folder, filename) row merges, taking the maximum priority; otherwise the
row is inserted (the refreshed `time` field is omitted, see `Scan`). -/
def upsertOne (q : List Scan) (s : Scan) : List Scan :=
  if q.any (fun r => r.folder == s.folder && r.filename == s.filename) then
    q.map (fun r =>
      if r.folder == s.folder && r.filename == s.filename then
        { r with priority := max r.priority s.priority }
      else r)
  else q ++ [s]

/-- Modelled from the spec: `Upsert` of a batch, scan by scan. -/
def upsert (q : List Scan) (ss : List Scan) : List Scan :=
  ss.foldl upsertOne q

/-- Mode of the processor goroutine: looping, blocked forever in
`select {}`, or the whole process terminated by `log.Fatal`. -/
inductive Mode where
  | running
  | stalled
  | aborted
deriving DecidableEq, Repr

/-- The driver loop's state: the `targetsAvailable` flag and the mode. -/
structure DriverState where
  targetsAvailable : Bool
  mode : Mode
deriving DecidableEq, Repr

/-- The whole daemon: the driver loop plus the durable queue of pending
scans shared with the triggers. -/
structure SysState where
  driver : DriverState
  queue : List Scan
deriving DecidableEq, Repr

/-- The state `main` starts the loop in: `targetsAvailable := false`,
goroutine running, empty store. -/
def initSys : SysState :=
  { driver := { targetsAvailable := false, mode := Mode.running }, queue := [] }

/-- Observable calls of the driver loop: one `proc.CheckAvailability`
result or one `proc.Process` result (`none` = nil error). -/
inductive Event where
  | check (r : Option GoErr)
  | process (r : Option GoErr)
deriving DecidableEq, Repr

/-- One unit of environment behaviour: either some trigger calls
`proc.Add` with a batch of scans, or the driver loop runs one iteration
whose `CheckAvailability` result is `cr`, whose `Process` result is `pr`,
and whose dispatched folder (chosen by `GetMatureFolder`) is `folder`. -/
inductive Directive where
  | triggerAdd (scans : List Scan)
  | tick (cr : Option GoErr) (pr : Option GoErr) (folder : GoStr)

/-- Effect of one `proc.Process(targets)` return on the daemon state,
following the `switch` in `main` (classification, in source order) and
spec §4.4 for the store effect: nil deletes the folder's rows;
`ErrNoScans` / `ErrAnchorUnavailable` arise before dispatch and leave the
store alone; a failed dispatch (`ErrTargetUnavailable`, `ErrFatal`, or an
unclassified error) has already incremented the folder's retries.  The
driver reacts per its `switch`: sleep, sleep, clear `targetsAvailable`,
block forever, or `log.Fatal`. -/
def processResultStep (st : SysState) (pr : Option GoErr) (folder : GoStr) : SysState :=
  match pr with
  | none => { st with queue := st.queue.filter (fun s => !(s.folder == folder)) }
  | some e =>
    if errorsIs e GoErr.errNoScans then st
    else if errorsIs e GoErr.errAnchorUnavailable then st
    else
      let bumped := st.queue.map (fun s =>
        if s.folder == folder then { s with retries := s.retries + 1 } else s)
      if errorsIs e GoErr.errTargetUnavailable then
        { driver := { st.driver with targetsAvailable := false }, queue := bumped }
      else if errorsIs e GoErr.errFatal then
        { driver := { st.driver with mode := Mode.stalled }, queue := bumped }
      else
        { driver := { st.driver with mode := Mode.aborted }, queue := bumped }

/-- One iteration of the `for` loop in `main` (a no-op once the goroutine
is stalled or the process aborted): the availability probe when
`targetsAvailable` is false, then — reached on a set flag or a nil probe —
the `Process` call. -/
def sysTick (st : SysState) (cr pr : Option GoErr) (folder : GoStr) :
    SysState × List Event :=
  match st.driver.mode with
  | Mode.running =>
    if st.driver.targetsAvailable then
      (processResultStep st pr folder, [Event.process pr])
    else
      match cr with
      | none =>
        let st1 : SysState := { st with driver := { st.driver with targetsAvailable := true } }
        (processResultStep st1 pr folder, [Event.check none, Event.process pr])
      | some e =>
        if errorsIs e GoErr.errFatal then
          ({ st with driver := { st.driver with mode := Mode.stalled } },
           [Event.check (some e)])
        else (st, [Event.check (some e)])
  | _ => (st, [])

/-- One step of the daemon.  A trigger `Add` persists its batch whether the
processor goroutine is running or stalled (the HTTP server is a separate
goroutine); after `log.Fatal` the process is gone and nothing steps. -/
def sysStep (st : SysState) : Directive → SysState × List Event
  | Directive.triggerAdd scans =>
    match st.driver.mode with
    | Mode.aborted => (st, [])
    | _ => ({ st with queue := upsert st.queue scans }, [])
  | Directive.tick cr pr folder => sysTick st cr pr folder

/-- Run a whole schedule of directives, collecting the emitted events. -/
def sysRun (st : SysState) : List Directive → SysState × List Event
  | [] => (st, [])
  | d :: ds =>
    let p := sysStep st d
    let q := sysRun p.1 ds
    (q.1, p.2 ++ q.2)

/-! ## Facts about `errors.Is` on linear chains -/

/-- The final element of an error chain. -/
def leafOf : GoErr → GoErr
  | GoErr.wrap _ inner => leafOf inner
  | e => e

theorem errorsIs_true_leaf (e t : GoErr) (ht : ∀ m i, t ≠ GoErr.wrap m i)
    (h : errorsIs e t = true) : leafOf e = t := by
  induction e with
  | errNoScans => exact beq_iff_eq.mp h
  | errAnchorUnavailable => exact beq_iff_eq.mp h
  | errTargetUnavailable => exact beq_iff_eq.mp h
  | errFatal => exact beq_iff_eq.mp h
  | base m => exact beq_iff_eq.mp h
  | wrap m inner ih =>
    rw [errorsIs] at h
    cases h1 : (GoErr.wrap m inner == t) with
    | true => exact absurd (beq_iff_eq.mp h1).symm (ht m inner)
    | false =>
      rw [h1, Bool.false_or] at h
      rw [leafOf]
      exact ih h

/-- A chain matches at most one non-wrap error: `errors.Is` against two
distinct sentinels cannot both hold. -/
theorem errorsIs_sentinel_unique (e a b : GoErr)
    (ha : ∀ m i, a ≠ GoErr.wrap m i) (hb : ∀ m i, b ≠ GoErr.wrap m i)
    (hne : a ≠ b) (h : errorsIs e a = true) : errorsIs e b = false := by
  cases h' : errorsIs e b with
  | false => rfl
  | true =>
    exact absurd ((errorsIs_true_leaf e a ha h).symm.trans
      (errorsIs_true_leaf e b hb h')) hne

theorem errorsIs_TU_not_noScans (e : GoErr)
    (h : errorsIs e GoErr.errTargetUnavailable = true) :
    errorsIs e GoErr.errNoScans = false :=
  errorsIs_sentinel_unique e _ _ (fun _ _ h' => GoErr.noConfusion h')
    (fun _ _ h' => GoErr.noConfusion h') (fun h' => GoErr.noConfusion h') h

theorem errorsIs_TU_not_anchor (e : GoErr)
    (h : errorsIs e GoErr.errTargetUnavailable = true) :
    errorsIs e GoErr.errAnchorUnavailable = false :=
  errorsIs_sentinel_unique e _ _ (fun _ _ h' => GoErr.noConfusion h')
    (fun _ _ h' => GoErr.noConfusion h') (fun h' => GoErr.noConfusion h') h

theorem errorsIs_fatal_not_noScans (e : GoErr)
    (h : errorsIs e GoErr.errFatal = true) :
    errorsIs e GoErr.errNoScans = false :=
  errorsIs_sentinel_unique e _ _ (fun _ _ h' => GoErr.noConfusion h')
    (fun _ _ h' => GoErr.noConfusion h') (fun h' => GoErr.noConfusion h') h

theorem errorsIs_fatal_not_anchor (e : GoErr)
    (h : errorsIs e GoErr.errFatal = true) :
    errorsIs e GoErr.errAnchorUnavailable = false :=
  errorsIs_sentinel_unique e _ _ (fun _ _ h' => GoErr.noConfusion h')
    (fun _ _ h' => GoErr.noConfusion h') (fun h' => GoErr.noConfusion h') h

theorem errorsIs_fatal_not_TU (e : GoErr)
    (h : errorsIs e GoErr.errFatal = true) :
    errorsIs e GoErr.errTargetUnavailable = false :=
  errorsIs_sentinel_unique e _ _ (fun _ _ h' => GoErr.noConfusion h')
    (fun _ _ h' => GoErr.noConfusion h') (fun h' => GoErr.noConfusion h') h

/-! ## Store upserts never lose a key -/

/-- A (folder, filename) key is present in the queue. -/
def hasKey (q : List Scan) (f n : GoStr) : Prop :=
  ∃ s ∈ q, s.folder = f ∧ s.filename = n

theorem upsertOne_hasKey (q : List Scan) (t : Scan) (f n : GoStr)
    (h : hasKey q f n) : hasKey (upsertOne q t) f n := by
  obtain ⟨s, hs, hf, hn⟩ := h
  unfold upsertOne
  split
  · refine ⟨_, List.mem_map_of_mem _ hs, ?_, ?_⟩
    · split <;> simpa using hf
    · split <;> simpa using hn
  · exact ⟨s, List.mem_append_left _ hs, hf, hn⟩

theorem upsert_hasKey (ss : List Scan) (q : List Scan) (f n : GoStr)
    (h : hasKey q f n) : hasKey (upsert q ss) f n := by
  induction ss generalizing q with
  | nil => exact h
  | cons t ts ih => exact ih (upsertOne q t) (upsertOne_hasKey q t f n h)

/-! ## Permanence of the stalled and aborted modes -/

theorem sysStep_stalled (st : SysState) (d : Directive)
    (h : st.driver.mode = Mode.stalled) :
    (sysStep st d).2 = [] ∧ (sysStep st d).1.driver = st.driver ∧
    ∀ f n, hasKey st.queue f n → hasKey (sysStep st d).1.queue f n := by
  cases d with
  | triggerAdd scans =>
    simp only [sysStep]
    rw [h]
    exact ⟨rfl, rfl, fun f n hk => upsert_hasKey scans st.queue f n hk⟩
  | tick cr pr folder =>
    simp only [sysStep, sysTick]
    rw [h]
    exact ⟨rfl, rfl, fun f n hk => hk⟩

theorem sysRun_stalled (ds : List Directive) (st : SysState)
    (h : st.driver.mode = Mode.stalled) :
    (sysRun st ds).2 = [] ∧ (sysRun st ds).1.driver = st.driver ∧
    ∀ f n, hasKey st.queue f n → hasKey (sysRun st ds).1.queue f n := by
  induction ds generalizing st with
  | nil => exact ⟨rfl, rfl, fun f n hk => hk⟩
  | cons d ds ih =>
    obtain ⟨he, hd, hq⟩ := sysStep_stalled st d h
    have hmode : (sysStep st d).1.driver.mode = Mode.stalled := by rw [hd, h]
    obtain ⟨he', hd', hq'⟩ := ih (sysStep st d).1 hmode
    refine ⟨?_, ?_, ?_⟩
    · show (sysStep st d).2 ++ (sysRun (sysStep st d).1 ds).2 = []
      rw [he, he']
      rfl
    · show (sysRun (sysStep st d).1 ds).1.driver = st.driver
      rw [hd', hd]
    · intro f n hk
      exact hq' f n (hq f n hk)

theorem sysRun_aborted (ds : List Directive) (st : SysState)
    (h : st.driver.mode = Mode.aborted) : sysRun st ds = (st, []) := by
  induction ds generalizing st with
  | nil => rfl
  | cons d ds ih =>
    have hstep : sysStep st d = (st, []) := by
      cases d with
      | triggerAdd scans =>
        simp only [sysStep]
        rw [h]
      | tick cr pr folder =>
        simp only [sysStep, sysTick]
        rw [h]
    show ((sysRun (sysStep st d).1 ds).1, (sysStep st d).2 ++ (sysRun (sysStep st d).1 ds).2) = (st, [])
    rw [hstep]
    rw [ih st h]
    rfl

/-! ## Fatal transitions of one loop iteration -/

theorem sysTick_check_fatal (st : SysState) (cr pr : Option GoErr) (folder : GoStr)
    (e : GoErr) (hm : st.driver.mode = Mode.running)
    (ha : st.driver.targetsAvailable = false) (hc : cr = some e)
    (hf : errorsIs e GoErr.errFatal = true) :
    (sysTick st cr pr folder).1.driver.mode = Mode.stalled := by
  simp only [sysTick]
  rw [hm, ha, hc]
  simp [hf]

theorem sysTick_process_fatal (st : SysState) (cr pr : Option GoErr) (folder : GoStr)
    (e : GoErr) (hm : st.driver.mode = Mode.running)
    (ha : st.driver.targetsAvailable = true) (hp : pr = some e)
    (hf : errorsIs e GoErr.errFatal = true) :
    (sysTick st cr pr folder).1.driver.mode = Mode.stalled := by
  simp only [sysTick]
  rw [hm, ha, hp]
  simp [processResultStep, errorsIs_fatal_not_noScans e hf,
    errorsIs_fatal_not_anchor e hf, errorsIs_fatal_not_TU e hf, hf]

/-- C1: if `CheckAvailability(targets)` or `Process(targets)` returns an
error matching `ErrFatal`, the driver loop halts permanently — it emits no
further `Process` or `CheckAvailability` call in any continuation — while
trigger `Add`s still persist scans and no queued (folder, filename) key is
ever lost. -/
theorem fatal_stalls_processor_triggers_persist :
    (∀ st cr pr folder e, st.driver.mode = Mode.running →
        st.driver.targetsAvailable = false → cr = some e →
        errorsIs e GoErr.errFatal = true →
        (sysTick st cr pr folder).1.driver.mode = Mode.stalled) ∧
    (∀ st cr pr folder e, st.driver.mode = Mode.running →
        st.driver.targetsAvailable = true → pr = some e →
        errorsIs e GoErr.errFatal = true →
        (sysTick st cr pr folder).1.driver.mode = Mode.stalled) ∧
    (∀ st ds, st.driver.mode = Mode.stalled →
        (sysRun st ds).2 = [] ∧ (sysRun st ds).1.driver = st.driver ∧
        ∀ f n, hasKey st.queue f n → hasKey (sysRun st ds).1.queue f n) ∧
    (∀ st scans, st.driver.mode = Mode.stalled →
        (sysStep st (Directive.triggerAdd scans)).1.queue = upsert st.queue scans) := by
  refine ⟨sysTick_check_fatal, sysTick_process_fatal,
    fun st ds h => sysRun_stalled ds st h, fun st scans h => ?_⟩
  simp only [sysStep]
  rw [h]

theorem fatal_stalls_processor_triggers_persist_witness :
    (sysTick initSys (some GoErr.errFatal) none (gs "/m/Movies")).1.driver.mode
      = Mode.stalled :=
  fatal_stalls_processor_triggers_persist.1 initSys (some GoErr.errFatal) none
    (gs "/m/Movies") GoErr.errFatal rfl rfl rfl (by decide)

/-- C7: a `Process(targets)` error matching none of `ErrNoScans`,
`ErrAnchorUnavailable`, `ErrTargetUnavailable`, `ErrFatal` hits the
`default` arm, i.e. `log.Fatal` terminates the whole process: the mode
becomes aborted, and an aborted daemon takes no step of any kind. -/
theorem process_unclassified_error_aborts :
    (∀ st cr pr folder e, st.driver.mode = Mode.running →
        st.driver.targetsAvailable = true → pr = some e →
        errorsIs e GoErr.errNoScans = false →
        errorsIs e GoErr.errAnchorUnavailable = false →
        errorsIs e GoErr.errTargetUnavailable = false →
        errorsIs e GoErr.errFatal = false →
        (sysTick st cr pr folder).1.driver.mode = Mode.aborted) ∧
    (∀ st ds, st.driver.mode = Mode.aborted → sysRun st ds = (st, [])) := by
  refine ⟨fun st cr pr folder e hm ha hp h1 h2 h3 h4 => ?_,
    fun st ds h => sysRun_aborted ds st h⟩
  simp only [sysTick]
  rw [hm, ha, hp]
  simp [processResultStep, h1, h2, h3, h4]

theorem process_unclassified_error_aborts_witness :
    (sysTick { driver := { targetsAvailable := true, mode := Mode.running }, queue := [] }
        none (some (GoErr.base (gs "unexpected"))) (gs "/m/Movies")).1.driver.mode
      = Mode.aborted :=
  process_unclassified_error_aborts.1
    { driver := { targetsAvailable := true, mode := Mode.running }, queue := [] }
    none (some (GoErr.base (gs "unexpected"))) (gs "/m/Movies")
    (GoErr.base (gs "unexpected")) rfl rfl rfl
    (by decide) (by decide) (by decide) (by decide)

/-! ## Availability along the event trace

`availAfter`-style bookkeeping: the `targetsAvailable` flag of the driver
is a function of the emitted events (a nil `CheckAvailability` sets it, a
`Process` returning an `ErrTargetUnavailable`-matching error clears it),
and a `Process` event is only ever emitted at a point where the flag is
true. -/

/-- How one emitted event moves the `targetsAvailable` flag. -/
def availStep (b : Bool) (e : Event) : Bool :=
  match e with
  | Event.check none => true
  | Event.process (some err) =>
    if errorsIs err GoErr.errTargetUnavailable then false else b
  | _ => b

/-- Along an event list starting with flag `b`, every `process` event
occurs while the flag is true. -/
def goodEmission : Bool → List Event → Prop
  | _, [] => True
  | b, e :: rest =>
    (∀ r, e = Event.process r → b = true) ∧ goodEmission (availStep b e) rest

theorem goodEmission_append (l E : List Event) (b : Bool)
    (h1 : goodEmission b l) (h2 : goodEmission (l.foldl availStep b) E) :
    goodEmission b (l ++ E) := by
  induction l generalizing b with
  | nil => exact h2
  | cons e l ih =>
    obtain ⟨hp, hrest⟩ := h1
    exact ⟨hp, ih (availStep b e) hrest h2⟩

theorem processResultStep_avail (st : SysState) (pr : Option GoErr) (folder : GoStr)
    (ha : st.driver.targetsAvailable = true) :
    (processResultStep st pr folder).driver.targetsAvailable =
      availStep true (Event.process pr) := by
  cases pr with
  | none => simpa [processResultStep, availStep] using ha
  | some e =>
    cases h3 : errorsIs e GoErr.errTargetUnavailable with
    | true =>
      simp [processResultStep, availStep, h3, errorsIs_TU_not_noScans e h3,
        errorsIs_TU_not_anchor e h3]
    | false =>
      cases h1 : errorsIs e GoErr.errNoScans <;>
        cases h2 : errorsIs e GoErr.errAnchorUnavailable <;>
          cases h4 : errorsIs e GoErr.errFatal <;>
            simp [processResultStep, availStep, h1, h2, h3, h4, ha]

theorem sysStep_avail (st : SysState) (d : Directive) :
    goodEmission st.driver.targetsAvailable (sysStep st d).2 ∧
    (sysStep st d).2.foldl availStep st.driver.targetsAvailable =
      (sysStep st d).1.driver.targetsAvailable := by
  cases d with
  | triggerAdd scans =>
    cases hm : st.driver.mode <;> simp [sysStep, hm, goodEmission]
  | tick cr pr folder =>
    cases hm : st.driver.mode with
    | stalled => simp [sysStep, sysTick, hm, goodEmission]
    | aborted => simp [sysStep, sysTick, hm, goodEmission]
    | running =>
      cases ha : st.driver.targetsAvailable with
      | true =>
        have hstep : sysStep st (Directive.tick cr pr folder) =
            (processResultStep st pr folder, [Event.process pr]) := by
          simp only [sysStep, sysTick]
          rw [hm, ha]
          simp
        rw [hstep]
        refine ⟨⟨fun r h => rfl, trivial⟩, ?_⟩
        show availStep true (Event.process pr) =
          (processResultStep st pr folder).driver.targetsAvailable
        rw [processResultStep_avail st pr folder ha]
      | false =>
        cases cr with
        | none =>
          have hstep : sysStep st (Directive.tick none pr folder) =
              (processResultStep
                { st with driver := { st.driver with targetsAvailable := true } } pr folder,
               [Event.check none, Event.process pr]) := by
            simp only [sysStep, sysTick]
            rw [hm, ha]
            simp
          rw [hstep]
          refine ⟨⟨fun r h => Event.noConfusion h, ⟨fun r h => rfl, trivial⟩⟩, ?_⟩
          rw [processResultStep_avail _ pr folder rfl]
          rfl
        | some e =>
          cases hf : errorsIs e GoErr.errFatal with
          | true =>
            have hstep : sysStep st (Directive.tick (some e) pr folder) =
                ({ st with driver := { st.driver with mode := Mode.stalled } },
                 [Event.check (some e)]) := by
              simp only [sysStep, sysTick]
              rw [hm, ha]
              simp [hf]
            rw [hstep]
            exact ⟨⟨fun r h => Event.noConfusion h, trivial⟩, ha.symm⟩
          | false =>
            have hstep : sysStep st (Directive.tick (some e) pr folder) =
                (st, [Event.check (some e)]) := by
              simp only [sysStep, sysTick]
              rw [hm, ha]
              simp [hf]
            rw [hstep]
            exact ⟨⟨fun r h => Event.noConfusion h, trivial⟩, ha.symm⟩

theorem sysRun_avail (ds : List Directive) (st : SysState) :
    goodEmission st.driver.targetsAvailable (sysRun st ds).2 ∧
    (sysRun st ds).2.foldl availStep st.driver.targetsAvailable =
      (sysRun st ds).1.driver.targetsAvailable := by
  induction ds generalizing st with
  | nil => exact ⟨trivial, rfl⟩
  | cons d ds ih =>
    obtain ⟨g1, f1⟩ := sysStep_avail st d
    obtain ⟨g2, f2⟩ := ih (sysStep st d).1
    constructor
    · show goodEmission st.driver.targetsAvailable
        ((sysStep st d).2 ++ (sysRun (sysStep st d).1 ds).2)
      apply goodEmission_append _ _ _ g1
      rw [f1]
      exact g2
    · show ((sysStep st d).2 ++ (sysRun (sysStep st d).1 ds).2).foldl availStep
          st.driver.targetsAvailable =
        (sysRun (sysStep st d).1 ds).1.driver.targetsAvailable
      rw [List.foldl_append, f1, f2]

theorem goodEmission_process_prefix (x : List Event) (b : Bool) :
    ∀ r y, goodEmission b (x ++ Event.process r :: y) → x.foldl availStep b = true := by
  induction x generalizing b with
  | nil => exact fun r y h => h.1 r rfl
  | cons e x ih => exact fun r y h => ih (availStep b e) r y h.2

theorem foldl_false_true_mem_check (y : List Event) :
    y.foldl availStep false = true → Event.check none ∈ y := by
  induction y with
  | nil => exact fun h => absurd h (by decide)
  | cons e y ih =>
    intro h
    cases e with
    | check r =>
      cases r with
      | none => exact List.mem_cons_self _ _
      | some err => exact List.mem_cons_of_mem _ (ih h)
    | process r =>
      cases r with
      | none => exact List.mem_cons_of_mem _ (ih h)
      | some err =>
        have e1 : availStep false (Event.process (some err)) = false := by
          simp [availStep]
        rw [List.foldl_cons, e1] at h
        exact List.mem_cons_of_mem _ (ih h)

/-- C3: every `Process` call that returns an error matching
`ErrTargetUnavailable` clears `targetsAvailable`, and in any run of the
driver loop from its initial state, between that `Process` event and any
later `Process` event there is a `CheckAvailability` call that returned
nil. -/
theorem targetUnavailable_reprobed_before_next_process :
    (∀ (ds : List Directive) (a b c : List Event) (e : GoErr) (r : Option GoErr),
        (sysRun initSys ds).2 =
          a ++ Event.process (some e) :: (b ++ Event.process r :: c) →
        errorsIs e GoErr.errTargetUnavailable = true →
        Event.check none ∈ b) ∧
    (∀ st cr pr folder e, st.driver.mode = Mode.running →
        st.driver.targetsAvailable = true → pr = some e →
        errorsIs e GoErr.errTargetUnavailable = true →
        (sysTick st cr pr folder).1.driver.targetsAvailable = false) := by
  constructor
  · intro ds a b c e r hdec htu
    obtain ⟨g, _⟩ := sysRun_avail ds initSys
    rw [hdec] at g
    have hassoc : a ++ Event.process (some e) :: (b ++ Event.process r :: c) =
        (a ++ Event.process (some e) :: b) ++ Event.process r :: c := by
      simp
    rw [hassoc] at g
    have hfold := goodEmission_process_prefix _ _ r c g
    rw [List.foldl_append, List.foldl_cons] at hfold
    have e1 : availStep (a.foldl availStep initSys.driver.targetsAvailable)
        (Event.process (some e)) = false := by
      simp [availStep, htu]
    rw [e1] at hfold
    exact foldl_false_true_mem_check b hfold
  · intro st cr pr folder e hm ha hp htu
    simp only [sysTick]
    rw [hm, ha, hp]
    simp [processResultStep, htu, errorsIs_TU_not_noScans e htu,
      errorsIs_TU_not_anchor e htu]

theorem targetUnavailable_reprobed_before_next_process_witness :
    Event.check none ∈ [Event.check none] :=
  targetUnavailable_reprobed_before_next_process.1
    [Directive.tick none (some GoErr.errTargetUnavailable) (gs "/m/f"),
     Directive.tick none none (gs "/m/f")]
    [Event.check none] [Event.check none] [] GoErr.errTargetUnavailable none
    (by decide) (by decide)

/-! ## C2, C9, C5: behaviour of plex.go `Scan` -/

/-- C2: for every scan whose rewritten folder has no configured Plex
library path as a prefix, `Scan` logs the "No target libraries found"
warning and returns nil — the exact value a fully successful scan returns,
so the processor treats the cohort as dispatched successfully. -/
theorem plex_disclaims_unmatched_folder :
    ∀ (t : PlexTarget) (w : World) (scan : Scan),
      (∀ l ∈ t.libraries,
          hasPrefix (rewritePath t.rewrite scan.folder) l.Path = false) →
      plexScan t w scan = (ScanOutcome.ok, [PlexEvent.warnNoLibraries]) := by
  intro t w scan h
  have hfil : t.libraries.filter
      (fun l => hasPrefix (rewritePath t.rewrite scan.folder) l.Path) = [] := by
    rw [List.filter_eq_nil]
    intro l hl
    simp [h l hl]
  simp [plexScan, getScanLibrary, hfil]

def c2Target : PlexTarget :=
  { url := gs "http://plex:32400", token := gs "t",
    libraries := [{ Name := gs "Movies", Path := gs "/media/Movies", ID := 1 }],
    rewrite := [] }

def quietWorld : World :=
  { rc := fun _ _ _ => some (gs ""), apiScan := fun _ _ => none }

theorem plex_disclaims_unmatched_folder_witness :
    plexScan c2Target quietWorld
        { folder := gs "/downloads/Music/A", filename := gs "a.flac",
          priority := 0, retries := 0 } =
      (ScanOutcome.ok, [PlexEvent.warnNoLibraries]) :=
  plex_disclaims_unmatched_folder c2Target quietWorld
    { folder := gs "/downloads/Music/A", filename := gs "a.flac",
      priority := 0, retries := 0 } (by decide)

/-- C9: when at least one library matches the rewritten folder and the
POST to the hard-coded rclone endpoint fails at the transport level,
`rcrefresh` panics, so `Scan` crashes the calling goroutine instead of
returning an error. -/
theorem plex_scan_panics_on_rc_failure :
    ∀ (t : PlexTarget) (w : World) (scan : Scan) (libs : List library),
      getScanLibrary t.libraries (rewritePath t.rewrite scan.folder) =
        Except.ok libs →
      (∀ r d, w.rc url r d = none) →
      (plexScan t w scan).1 = ScanOutcome.panicked := by
  intro t w scan libs hok hrc
  have hrc1 : (rcphase w (rewritePath t.rewrite scan.folder)).1 = false := by
    simp only [rcphase]
    cases hli : lastIndexOfChar
        (trimPrefix (rewritePath t.rewrite scan.folder) (gs "/mnt/unionfs/Media"))
        '/' with
    | none => simp [hli]
    | some i => simp [hli, hrc]
  simp [plexScan, hok, hrc1]

def c9Target : PlexTarget :=
  { url := gs "http://plex:32400", token := gs "t",
    libraries := [{ Name := gs "Movies", Path := gs "/media/Movies", ID := 1 }],
    rewrite := [] }

def deadRcWorld : World :=
  { rc := fun _ _ _ => none, apiScan := fun _ _ => none }

theorem plex_scan_panics_on_rc_failure_witness :
    (plexScan c9Target deadRcWorld
        { folder := gs "/media/Movies/A", filename := gs "a.mkv",
          priority := 0, retries := 0 }).1 = ScanOutcome.panicked :=
  plex_scan_panics_on_rc_failure c9Target deadRcWorld
    { folder := gs "/media/Movies/A", filename := gs "a.mkv",
      priority := 0, retries := 0 }
    [{ Name := gs "Movies", Path := gs "/media/Movies", ID := 1 }]
    rfl (fun r d => rfl)

theorem dispatchLibs_apiScan_folder (w : World) (sf : GoStr) (libs : List library) :
    ∀ f id, PlexEvent.apiScan f id ∈ (dispatchLibs w sf libs).2 → f = sf := by
  induction libs with
  | nil =>
    intro f id h
    exact absurd h (List.not_mem_nil _)
  | cons l ls ih =>
    intro f id h
    cases hres : w.apiScan sf l.ID with
    | some e =>
      simp [dispatchLibs, hres] at h
      exact h.1
    | none =>
      simp [dispatchLibs, hres] at h
      rcases h with ⟨hf, _⟩ | h2
      · exact hf
      · exact ih f id h2

/-- C5: the folder stored for a scan is the target-visible path (spec:
rewriting happens before `folder` is stored), and every `api.Scan` request
the plex target issues uses the rewriter applied to `scan.Folder` — never
the original path when the rewrite changes it.  The last conjunct is spec
scenario 6 for the modelled rewriter. -/
theorem plex_scan_uses_rewritten_folder :
    (∀ (t : PlexTarget) (w : World) (scan : Scan) (f : GoStr) (id : Nat),
        PlexEvent.apiScan f id ∈ (plexScan t w scan).2 →
        f = rewritePath t.rewrite scan.folder) ∧
    (∀ (t : PlexTarget) (w : World) (scan : Scan) (id : Nat),
        rewritePath t.rewrite scan.folder ≠ scan.folder →
        PlexEvent.apiScan scan.folder id ∉ (plexScan t w scan).2) ∧
    rewritePath [{ fromPath := gs "/downloads", toPath := gs "/media" }]
        (gs "/downloads/Movies/X") = gs "/media/Movies/X" := by
  have main : ∀ (t : PlexTarget) (w : World) (scan : Scan) (f : GoStr) (id : Nat),
      PlexEvent.apiScan f id ∈ (plexScan t w scan).2 →
      f = rewritePath t.rewrite scan.folder := by
    intro t w scan f id h
    simp only [plexScan] at h
    split at h
    · simp at h
    · split at h
      · rw [List.mem_append] at h
        rcases h with h1 | h2
        · simp at h1
        · exact dispatchLibs_apiScan_folder w _ _ f id h2
      · simp at h
  refine ⟨main, fun t w scan id hne h => ?_, by decide⟩
  exact hne (main t w scan scan.folder id h).symm

def c5Target : PlexTarget :=
  { url := gs "http://plex:32400", token := gs "t",
    libraries := [{ Name := gs "Movies", Path := gs "/media", ID := 7 }],
    rewrite := [{ fromPath := gs "/downloads", toPath := gs "/media" }] }

theorem plex_scan_uses_rewritten_folder_witness :
    gs "/media/Movies/X" =
      rewritePath c5Target.rewrite (gs "/downloads/Movies/X") :=
  plex_scan_uses_rewritten_folder.1 c5Target quietWorld
    { folder := gs "/downloads/Movies/X", filename := gs "x.mkv",
      priority := 0, retries := 0 }
    (gs "/media/Movies/X") 7 (by decide)

/-! ## C4: unsupported Plex version at target initialisation -/

/-- C4: when the reported version parses (Atoi errors included) to
major < 1, or major = 1 with minor < 20, `plex.New` returns an error
wrapping `ErrFatal`, and the target-initialisation loop of `main` aborts
startup with exit code 1 (`log.Fatal`). -/
theorem unsupported_plex_version_fatal_exit1 :
    ∀ (c : PlexConfig) (lr : Except GoErr (List library)) (version p0 p1 : GoStr)
      (rest : List GoStr),
      splitOnChar '.' version = p0 :: p1 :: rest →
      (atoiOrZero p0 < 1 ∨ (atoiOrZero p0 = 1 ∧ atoiOrZero p1 < 20)) →
      (∃ e, plexNew c (Except.ok version) lr = Except.error e ∧
          errorsIs e GoErr.errFatal = true) ∧
      (∀ cfgs, initPlexTargets ((c, Except.ok version, lr) :: cfgs) =
          Except.error 1) := by
  intro c lr version p0 p1 rest hsplit hbad
  have hcond : ¬(2 ≤ atoiOrZero p0 ∨ (atoiOrZero p0 = 1 ∧ 20 ≤ atoiOrZero p1)) := by
    rcases hbad with h1 | ⟨h2, h3⟩ <;>
      · rintro (hx | ⟨hy, hz⟩) <;> omega
  have hunsup : isSupportedVersion version = false := by
    unfold isSupportedVersion
    rw [hsplit]
    simp [hcond]
  have hnew : plexNew c (Except.ok version) lr =
      Except.error (GoErr.wrap
        (gs "plex running unsupported version " ++ version) GoErr.errFatal) := by
    simp [plexNew, hunsup]
  refine ⟨⟨_, hnew, ?_⟩, fun cfgs => ?_⟩
  · simp [errorsIs]
  · simp [initPlexTargets, hnew]

theorem unsupported_plex_version_fatal_exit1_witness :
    initPlexTargets
        [({ url := gs "http://plex:32400", token := gs "t", rewrite := [],
            verbosity := gs "" },
          Except.ok (gs "1.19.3"), Except.ok [])] = Except.error 1 :=
  (unsupported_plex_version_fatal_exit1
    { url := gs "http://plex:32400", token := gs "t", rewrite := [],
      verbosity := gs "" }
    (Except.ok []) (gs "1.19.3") (gs "1") (gs "19") [gs "3"]
    (by decide) (by decide)).2 []

/-! ## C10: totality and malformed versions -/

/-- C10: `isSupportedVersion` is a total function; fewer than two
dot-separated parts yield false; Atoi errors are swallowed as 0, so
"1.20b" is rejected (its minor parses to 0) although "1.20" is
accepted. -/
theorem isSupportedVersion_malformed_rejected :
    (∀ v : GoStr, (splitOnChar '.' v).length < 2 → isSupportedVersion v = false) ∧
    atoiOrZero (gs "20b") = 0 ∧
    isSupportedVersion (gs "1.20b") = false ∧
    isSupportedVersion (gs "1.20") = true := by
  refine ⟨?_, by decide, by decide, by decide⟩
  intro v h
  unfold isSupportedVersion
  cases hsp : splitOnChar '.' v with
  | nil => rfl
  | cons p0 ps =>
    cases ps with
    | nil => rfl
    | cons p1 rest =>
      rw [hsp] at h
      simp at h
      omega

theorem isSupportedVersion_malformed_rejected_witness :
    isSupportedVersion (gs "120") = false :=
  isSupportedVersion_malformed_rejected.1 (gs "120") (by decide)

/-! ## C6: the webhook authentication warning skips lidarr -/

/-- C6 (code bug): with one lidarr trigger configured, no radarr/sonarr
triggers, and no credentials, the code does not warn — its condition only
counts radarr and sonarr — while the claimed condition (any webhook
trigger: lidarr, radarr or sonarr) requires the warning. -/
theorem webhook_auth_warning_ignores_lidarr :
    webhookAuthWarning (gs "") (gs "") 1 0 0 = false ∧
    claimedWebhookAuthWarning (gs "") (gs "") 1 0 0 = true := by
  decide

/-! ## C8: strict decoding and defaults -/

theorem applyKey_unknown (c : Config) (k : GoStr) (v : YVal)
    (h : ∀ rk ∈ recognisedKeys, k ≠ rk) : applyKey c k v = none := by
  have hp := beq_eq_false_iff_ne.mpr (h (gs "port") (by decide))
  have hma := beq_eq_false_iff_ne.mpr (h (gs "minimum-age") (by decide))
  have hsd := beq_eq_false_iff_ne.mpr (h (gs "scan-delay") (by decide))
  have han := beq_eq_false_iff_ne.mpr (h (gs "anchors") (by decide))
  have hau := beq_eq_false_iff_ne.mpr (h (gs "authentication") (by decide))
  have htr := beq_eq_false_iff_ne.mpr (h (gs "triggers") (by decide))
  have hta := beq_eq_false_iff_ne.mpr (h (gs "targets") (by decide))
  simp [applyKey, hp, hma, hsd, han, hau, htr, hta]

theorem decodeConfigFrom_unknown (doc : List (GoStr × YVal)) (k : GoStr) (v : YVal)
    (hmem : (k, v) ∈ doc) (h : ∀ rk ∈ recognisedKeys, k ≠ rk) :
    ∀ c, decodeConfigFrom c doc = none := by
  induction doc with
  | nil => exact absurd hmem (List.not_mem_nil _)
  | cons kv rest ih =>
    obtain ⟨k', v'⟩ := kv
    intro c
    rcases List.mem_cons.mp hmem with he | hm
    · cases he
      simp [decodeConfigFrom, applyKey_unknown c k v h]
    · cases hak : applyKey c k' v' with
      | none => simp [decodeConfigFrom, hak]
      | some c1 =>
        simp [decodeConfigFrom, hak]
        exact ih hm c1

theorem applyKey_preserves (c c' : Config) (k : GoStr) (v : YVal)
    (h : applyKey c k v = some c') :
    (k ≠ gs "port" → c'.port = c.port) ∧
    (k ≠ gs "minimum-age" → c'.minimumAge = c.minimumAge) ∧
    (k ≠ gs "scan-delay" → c'.scanDelay = c.scanDelay) := by
  unfold applyKey at h
  split_ifs at h <;> cases v <;>
    first
    | exact Option.noConfusion h
    | (injection h with h
       subst h
       refine ⟨fun hk => ?_, fun hk => ?_, fun hk => ?_⟩ <;> simp_all)

theorem decodeConfigFrom_preserves (doc : List (GoStr × YVal)) :
    ∀ c c', decodeConfigFrom c doc = some c' →
      ((∀ kv ∈ doc, kv.1 ≠ gs "port") → c'.port = c.port) ∧
      ((∀ kv ∈ doc, kv.1 ≠ gs "minimum-age") → c'.minimumAge = c.minimumAge) ∧
      ((∀ kv ∈ doc, kv.1 ≠ gs "scan-delay") → c'.scanDelay = c.scanDelay) := by
  induction doc with
  | nil =>
    intro c c' h
    cases h
    exact ⟨fun _ => rfl, fun _ => rfl, fun _ => rfl⟩
  | cons kv rest ih =>
    obtain ⟨k, v⟩ := kv
    intro c c' h
    cases hak : applyKey c k v with
    | none =>
      rw [decodeConfigFrom, hak] at h
      cases h
    | some c1 =>
      rw [decodeConfigFrom, hak] at h
      obtain ⟨hp, hm, hs⟩ := ih c1 c' h
      obtain ⟨ap, am, asd⟩ := applyKey_preserves c c1 k v hak
      refine ⟨fun hall => ?_, fun hall => ?_, fun hall => ?_⟩
      · rw [hp (fun x hx => hall x (List.mem_cons_of_mem _ hx)),
          ap (hall (k, v) (List.mem_cons_self _ _))]
      · rw [hm (fun x hx => hall x (List.mem_cons_of_mem _ hx)),
          am (hall (k, v) (List.mem_cons_self _ _))]
      · rw [hs (fun x hx => hall x (List.mem_cons_of_mem _ hx)),
          asd (hall (k, v) (List.mem_cons_self _ _))]

/-- C8: a top-level key outside the config schema makes the strict decode
fail and the daemon exit (code 1) before the processor is initialised;
when the port / minimum-age / scan-delay keys are absent, the running
daemon keeps the defaults 3030, 10 minutes and 5 seconds. -/
theorem strict_config_unknown_key_and_defaults :
    (∀ (doc : List (GoStr × YVal)) (procInit : Config → Option GoErr)
        (k : GoStr) (v : YVal),
        (k, v) ∈ doc → (∀ rk ∈ recognisedKeys, k ≠ rk) →
        startupSequence doc procInit = StartupResult.exitedAtConfig 1) ∧
    (∀ (doc : List (GoStr × YVal)) (procInit : Config → Option GoErr) (c : Config),
        (∀ kv ∈ doc, kv.1 ≠ gs "port" ∧ kv.1 ≠ gs "minimum-age" ∧
          kv.1 ≠ gs "scan-delay") →
        startupSequence doc procInit = StartupResult.running c →
        c.port = 3030 ∧ c.minimumAge = 10 * nsPerMinute ∧
          c.scanDelay = 5 * nsPerSecond) := by
  constructor
  · intro doc procInit k v hmem hunk
    have hd : decodeConfig doc = none :=
      decodeConfigFrom_unknown doc k v hmem hunk defaultConfig
    simp [startupSequence, hd]
  · intro doc procInit c hall hrun
    unfold startupSequence at hrun
    cases hdc : decodeConfig doc with
    | none =>
      rw [hdc] at hrun
      simp at hrun
    | some c0 =>
      rw [hdc] at hrun
      simp only [] at hrun
      cases hpi : procInit c0 with
      | some e =>
        rw [hpi] at hrun
        simp at hrun
      | none =>
        rw [hpi] at hrun
        simp at hrun
        subst hrun
        obtain ⟨hp, hm, hs⟩ := decodeConfigFrom_preserves doc defaultConfig c0 hdc
        exact ⟨hp fun x hx => (hall x hx).1,
          hm fun x hx => (hall x hx).2.1,
          hs fun x hx => (hall x hx).2.2⟩

theorem strict_config_unknown_key_and_defaults_witness :
    startupSequence [(gs "bogus", YVal.nat 1)] (fun _ => none) =
        StartupResult.exitedAtConfig 1 ∧
    (defaultConfig.port = 3030 ∧ defaultConfig.minimumAge = 10 * nsPerMinute ∧
      defaultConfig.scanDelay = 5 * nsPerSecond) :=
  ⟨strict_config_unknown_key_and_defaults.1 [(gs "bogus", YVal.nat 1)]
      (fun _ => none) (gs "bogus") (YVal.nat 1) (by decide) (by decide),
   strict_config_unknown_key_and_defaults.2 [] (fun _ => none) defaultConfig
      (fun x hx => absurd hx (List.not_mem_nil _)) rfl⟩
